import Mathlib

/-!
Verification of the AmiX end-to-end messaging core (AmiXCrypto, GroupCrypto,
AmiXMessageQueue) against its natural-language specification.

Cryptographic primitives from tweetnacl / WebCrypto (HMAC-SHA-256, X25519
scalar multiplication, XSalsa20-Poly1305 secretbox, Ed25519 signatures) are
modelled symbolically as free constructors of a term algebra, the standard
perfect-cryptography abstraction: two derived values are equal exactly when
they were built from equal inputs, and authenticated decryption succeeds
exactly on the matching (message, nonce, key) triple.  SHA-256, by contrast,
is implemented concretely (bit-for-bit, RFC 6234) because the safety-number
claims depend on the actual digest of concrete strings.  Every random value
the JavaScript draws (HKDF salts, nonces, padding, key seeds) becomes an
explicit parameter of the corresponding Lean function.
-/

namespace AmiX

/-- UTF-8 bytes of a string; the sources only ever hash ASCII data here,
for which the bytes are the character codes. -/
def utf8 (s : String) : List Nat :=
  s.toList.map Char.toNat

/-- Symbolic byte strings: concrete bytes plus the outputs of the
cryptographic primitives the AmiX code calls, as free constructors. -/
inductive Bytes where
  /-- A concrete byte string. -/
  | raw : List Nat → Bytes
  /-- HMAC-SHA-256 of symbolic data under a symbolic key. -/
  | hmacB : Bytes → Bytes → Bytes
  /-- tweetnacl secretbox: authenticated encryption of a concrete message
  under a concrete nonce and a symbolic key. -/
  | boxSeal : List Nat → List Nat → Bytes → Bytes
  /-- Ed25519 signature over a concrete message under a symbolic key. -/
  | signed : List Nat → Bytes → Bytes
  deriving DecidableEq, Repr

/-- Curve25519 public key of the keypair with seed s (discrete-log view of
the points produced by box_keypair). -/
def pubKey (s : Nat) : Bytes := .raw [1, s]

/-- Curve25519 private key of the keypair with seed s. -/
def privKey (s : Nat) : Bytes := .raw [2, s]

/-- tweetnacl box(theirPublicKey, ourSecretKey): the raw X25519 shared
secret.  Scalar multiplication is commutative, so for honestly generated
keypairs the secret depends only on the unordered pair of seeds. -/
def boxDH (theirPublicKey ourPrivateKey : Bytes) : Bytes :=
  match theirPublicKey, ourPrivateKey with
  | .raw [1, a], .raw [2, b] => .raw [3, min a b, max a b]
  | _, _ => .raw []

/-- One-block HKDF (RFC 5869) as AmiXCrypto.hkdf computes it for the
default 32-byte output: extract prk = hmac(salt, inputKey), then expand
with a single block hmac(prk, info ++ [0x01]). -/
def hkdf1 (inputKey salt : Bytes) (info : List Nat) : Bytes :=
  .hmacB (.hmacB salt inputKey) (.raw (info ++ [1]))

/-- AmiXCrypto.deriveKey(inputKey, info): generates a RANDOM salt
(generateRandomBytes(32) on every call; the function takes no salt
parameter) and runs hkdf.  The salt drawn is the explicit argument. -/
def deriveKey (inputKey : Bytes) (info : String) (salt : List Nat) : Bytes :=
  hkdf1 inputKey (.raw salt) (utf8 info)

/-- Result of AmiXCrypto.performKeyExchange. -/
structure KeyExchangeResult where
  sharedSecret : Bytes
  timestamp : Nat
  deriving DecidableEq, Repr

/-- AmiXCrypto.performKeyExchange(theirPublicKey, ourPrivateKey): X25519 via
box, then deriveKey with the domain label amix-x3dh.  salt is the random
salt that this call of deriveKey draws; now is Date.now(). -/
def performKeyExchange (theirPublicKey ourPrivateKey : Bytes)
    (salt : List Nat) (now : Nat) : KeyExchangeResult :=
  { sharedSecret := deriveKey (boxDH theirPublicKey ourPrivateKey) "amix-x3dh" salt
    timestamp := now }

theorem boxDH_comm (a b : Nat) :
    boxDH (pubKey a) (privKey b) = boxDH (pubKey b) (privKey a) := by
  simp [boxDH, pubKey, privKey, min_comm, max_comm]

/-- C2: for identity keypairs A (seed 0) and B (seed 1), the raw X25519
secrets of the two sides agree, but the values performKeyExchange returns
differ whenever the two calls draw different random HKDF salts — here the
concrete salts [7] and [8].  The code contradicts its own test
(crypto.test.js, "should perform key exchange"). -/
theorem c2_keyExchange_not_symmetric :
    boxDH (pubKey 1) (privKey 0) = boxDH (pubKey 0) (privKey 1) ∧
    (performKeyExchange (pubKey 1) (privKey 0) [7] 100).sharedSecret ≠
      (performKeyExchange (pubKey 0) (privKey 1) [8] 200).sharedSecret := by
  constructor
  · exact boxDH_comm 1 0
  · decide

/-! ## SHA-256 (RFC 6234), implemented concretely

expo-crypto digestStringAsync(SHA256, s) returns the lowercase hex digest of
the UTF-8 bytes of s; AmiXCrypto.generateSafetyNumber formats that digest.
Words are Nats kept below 2^32 by explicit reduction. -/

/-- The modulus of all 32-bit word arithmetic below, 2 to the 32. -/
def m32 : Nat := 4294967296

/-- Right rotation of a 32-bit word. -/
def rotr32 (n x : Nat) : Nat := ((x >>> n) ||| (x <<< (32 - n))) % m32

def bsig0 (x : Nat) : Nat := rotr32 2 x ^^^ rotr32 13 x ^^^ rotr32 22 x

def bsig1 (x : Nat) : Nat := rotr32 6 x ^^^ rotr32 11 x ^^^ rotr32 25 x

def ssig0 (x : Nat) : Nat := rotr32 7 x ^^^ rotr32 18 x ^^^ (x >>> 3)

def ssig1 (x : Nat) : Nat := rotr32 17 x ^^^ rotr32 19 x ^^^ (x >>> 10)

/-- Big-endian 8-byte encoding of a length in bits. -/
def be64 (n : Nat) : List Nat :=
  [(n >>> 56) &&& 255, (n >>> 48) &&& 255, (n >>> 40) &&& 255, (n >>> 32) &&& 255,
   (n >>> 24) &&& 255, (n >>> 16) &&& 255, (n >>> 8) &&& 255, n &&& 255]

/-- SHA-256 message padding: 0x80, zeros to 56 mod 64, 64-bit bit length. -/
def padMessage (msg : List Nat) : List Nat :=
  msg ++ [128] ++ List.replicate ((119 - msg.length % 64) % 64) 0 ++ be64 (msg.length * 8)

/-- Big-endian bytes to 32-bit words. -/
def toWords : List Nat → List Nat
  | a :: b :: c :: d :: rest => (((a * 256 + b) * 256 + c) * 256 + d) :: toWords rest
  | _ => []

/-- Extend the 16 message-schedule words by k further words. -/
def extendW (w : List Nat) : Nat → List Nat
  | 0 => w
  | k + 1 =>
      let n := w.length
      extendW (w ++ [(ssig1 (w.getD (n - 2) 0) + w.getD (n - 7) 0 +
        ssig0 (w.getD (n - 15) 0) + w.getD (n - 16) 0) % m32]) k

/-- The 64 SHA-256 round constants. -/
def sha256K : List Nat :=
  [1116352408, 1899447441, 3049323471, 3921009573, 961987163, 1508970993,
   2453635748, 2870763221, 3624381080, 310598401, 607225278, 1426881987,
   1925078388, 2162078206, 2614888103, 3248222580, 3835390401, 4022224774,
   264347078, 604807628, 770255983, 1249150122, 1555081692, 1996064986,
   2554220882, 2821834349, 2952996808, 3210313671, 3336571891, 3584528711,
   113926993, 338241895, 666307205, 773529912, 1294757372, 1396182291,
   1695183700, 1986661051, 2177026350, 2456956037, 2730485921, 2820302411,
   3259730800, 3345764771, 3516065817, 3600352804, 4094571909, 275423344,
   430227734, 506948616, 659060556, 883997877, 958139571, 1322822218,
   1537002063, 1747873779, 1955562222, 2024104815, 2227730452, 2361852424,
   2428436474, 2756734187, 3204031479, 3329325298]

/-- The SHA-256 initial hash state. -/
def sha256H0 : List Nat :=
  [0x6a09e667, 0xbb67ae85, 0x3c6ef372, 0xa54ff53a, 0x510e527f, 0x9b05688c, 0x1f83d9ab, 0x5be0cd19]

/-- One SHA-256 round on the 8-word working state. -/
def compressStep (st : List Nat) (kw : Nat × Nat) : List Nat :=
  match st with
  | [a, b, c, d, e, f, g, h] =>
      let ch := (e &&& f) ^^^ ((m32 - 1 - e) &&& g)
      let maj := (a &&& b) ^^^ (a &&& c) ^^^ (b &&& c)
      let t1 := (h + bsig1 e + ch + kw.1 + kw.2) % m32
      let t2 := (bsig0 a + maj) % m32
      [(t1 + t2) % m32, a, b, c, (d + t1) % m32, e, f, g]
  | other => other

/-- Compress one 64-byte block into the hash state. -/
def compressBlock (hs block : List Nat) : List Nat :=
  let ws := extendW (toWords block) 48
  let fin := (sha256K.zip ws).foldl compressStep hs
  (hs.zip fin).map fun p => (p.1 + p.2) % m32

/-- Fold the compression function over successive 64-byte blocks; the fuel
argument (any bound on the number of blocks, here the byte count) makes the
recursion structural. -/
def sha256ChunksF : Nat → List Nat → List Nat → List Nat
  | 0, hs, _ => hs
  | _ + 1, hs, [] => hs
  | fuel + 1, hs, b :: rest =>
      sha256ChunksF fuel (compressBlock hs ((b :: rest).take 64)) (rest.drop 63)

/-- Fold the compression function over successive 64-byte blocks. -/
def sha256Chunks (hs bytes : List Nat) : List Nat :=
  sha256ChunksF bytes.length hs bytes

/-- SHA-256 of a byte string, as 32 bytes. -/
def sha256 (msg : List Nat) : List Nat :=
  (sha256Chunks sha256H0 (padMessage msg)).foldr
    (fun w acc =>
      ((w >>> 24) &&& 255) :: ((w >>> 16) &&& 255) :: ((w >>> 8) &&& 255) :: (w &&& 255) :: acc) []

def hexChars : List Char := "0123456789abcdef".toList

/-- Lowercase hex rendering of a byte string (AmiXCrypto.bytesToHex; also the
format expo-crypto digestStringAsync returns). -/
def bytesToHex (bytes : List Nat) : String :=
  String.mk (bytes.foldr
    (fun b acc => hexChars.getD (b / 16 % 16) '0' :: hexChars.getD (b % 16) '0' :: acc) [])

/-- Split characters into successive groups of 4 (the JS regex .\x7b1,4\x7d
match in generateSafetyNumber). -/
def chunk4 : List Char → List String
  | [] => []
  | [a] => [String.mk [a]]
  | [a, b] => [String.mk [a, b]]
  | [a, b, c] => [String.mk [a, b, c]]
  | a :: b :: c :: d :: rest => String.mk [a, b, c, d] :: chunk4 rest

/-- AmiXCrypto.generateSafetyNumber(publicKey1, publicKey2): SHA-256 of the
concatenation publicKey1 + publicKey2 (in the order given, no canonical
sorting), truncated to 12 hex characters, grouped in blocks of 4 joined by
spaces, uppercased. -/
def generateSafetyNumber (publicKey1 publicKey2 : String) : String :=
  let combined := publicKey1 ++ publicKey2
  let hash := bytesToHex (sha256 (utf8 combined))
  String.mk ((String.join (List.intersperse " " (chunk4 (hash.toList.take 12)))).toList.map
    Char.toUpper)

/-- C3: generateSafetyNumber is not commutative.  With the public keys "A"
and "B", one side renders "3816 4FBD 1760" and the other "296D 71A7 F66E":
the code hashes the concatenation in argument order without the canonical
sorting the spec requires (spec section 9 flags exactly this as the bug). -/
theorem c3_safetyNumber_not_commutative :
    generateSafetyNumber "A" "B" ≠ generateSafetyNumber "B" "A" := by decide

/-! ## Double ratchet: createRatchetState, encryptMessage, decryptMessage -/

/-- Substring test on character lists (the semantics of the JS
String.prototype.includes). -/
def listHasSub (pat : List Char) : List Char → Bool
  | [] => pat.isEmpty
  | c :: rest => pat.isPrefixOf (c :: rest) || listHasSub pat rest

/-- s.includes(pat) of JS. -/
def strIncludes (s pat : String) : Bool :=
  listHasSub pat.toList s.toList

/-- tweetnacl secretbox_open: in the symbolic model authenticated decryption
returns the message exactly when ciphertext, nonce and key all match, and
returns null (none) otherwise. -/
def secretboxOpen (c : Bytes) (nonce : List Nat) (key : Bytes) : Option (List Nat) :=
  match c with
  | .boxSeal m n k => if n = nonce ∧ k = key then some m else none
  | _ => none

/-- A ratchet session state as createRatchetState builds it.  Keys are kept
as Bytes; the base64 encoding the JS applies is a bijection and is modelled
as the identity. -/
structure RatchetState where
  rootKey : Bytes
  chainKey : Bytes
  ourPrivateKey : Bytes
  theirPublicKey : Bytes
  messageCount : Nat
  timestamp : Nat
  deriving DecidableEq, Repr

/-- AmiXCrypto.createRatchetState(sharedSecret, ourPrivateKey,
theirPublicKey): root key from the shared secret under label amix-root,
initial chain key from the root key under label amix-chain, counter 0.
saltRoot and saltChain are the random salts the two deriveKey calls draw. -/
def createRatchetState (sharedSecret ourPrivateKey theirPublicKey : Bytes)
    (saltRoot saltChain : List Nat) (now : Nat) : RatchetState :=
  let rootKey := deriveKey sharedSecret "amix-root" saltRoot
  let chainKey := deriveKey rootKey "amix-chain" saltChain
  { rootKey, chainKey, ourPrivateKey, theirPublicKey, messageCount := 0, timestamp := now }

/-- The envelope encryptMessage returns.  messageCount is an Int because the
JS arithmetic on it (messageCount - 1 in decryptMessage) can go negative.
version is an Option: a missing field is none. -/
structure Envelope where
  ciphertext : Bytes
  nonce : List Nat
  aad : Bytes
  messageCount : Int
  timestamp : Nat
  version : Option String
  deriving DecidableEq, Repr

/-- The random values one call of the encryptMessage try block draws:
the padding bytes from generatePadding, the salts of the two deriveKey
calls, and the 24-byte nonce. -/
structure EncDraws where
  padding : List Nat
  saltMsg : List Nat
  saltChain : List Nat
  nonce : List Nat
  deriving Repr

/-- The body of the try block of AmiXCrypto.encryptMessage (the part after
the dead prologue, see encryptMessage below): pad with a 2-byte header
[padding length mod 256, min(message length, 255)], derive the message key
under the counter label and the next chain key under amix-next-chain from
the same chain key, secretbox under a fresh nonce, hash the optional aad,
then advance chain key and counter; the envelope carries the incremented
counter and the version tag xchacha20poly1305-1.0.0-padded. -/
def encryptMessageBody (message : String) (st : RatchetState)
    (aadOpt : Option (List Nat)) (r : EncDraws) (now : Nat) : Envelope × RatchetState :=
  let messageBytes := utf8 message
  let padded := (r.padding.length % 256) :: min messageBytes.length 255 ::
    (messageBytes ++ r.padding)
  let messageKey := deriveKey st.chainKey ("amix-msg-" ++ toString st.messageCount) r.saltMsg
  let nextChainKey := deriveKey st.chainKey "amix-next-chain" r.saltChain
  let encrypted := Bytes.boxSeal padded r.nonce messageKey
  let aadHash := Bytes.raw (sha256 (aadOpt.getD []))
  ({ ciphertext := encrypted, nonce := r.nonce, aad := aadHash,
     messageCount := (st.messageCount : Int) + 1, timestamp := now,
     version := some "xchacha20poly1305-1.0.0-padded" },
   { st with chainKey := nextChainKey, messageCount := st.messageCount + 1 })

/-- AmiXCrypto.encryptMessage as written: its first statement, before the
try block, is a call of addPadding, and no addPadding function is defined
or imported anywhere in the repository, so every call raises a
ReferenceError outside the try/catch and the function always rejects. -/
def encryptMessage (_message : String) (_st : RatchetState) :
    Except String (Envelope × RatchetState) :=
  .error "ReferenceError: addPadding is not defined"

/-- The body of the try block of AmiXCrypto.decryptMessage: version gate
(reject unless the version is exactly xchacha20poly1305-1.0.0 or contains
the substring padded), message key for counter messageCount - 1 from the
current chain key with a FRESH random salt (the saltMsg argument), optional
aad hash comparison, secretbox_open, then unpadding when the version
contains padded.  The receive chain is never advanced. -/
def decryptMessageBody (env : Envelope) (st : RatchetState)
    (aadOpt : Option (List Nat)) (saltMsg : List Nat) : Except String (List Nat) :=
  match env.version with
  | none => .error "Unsupported protocol version"
  | some v =>
    if v ≠ "xchacha20poly1305-1.0.0" ∧ strIncludes v "padded" = false then
      .error "Unsupported protocol version"
    else
      let messageKey :=
        deriveKey st.chainKey ("amix-msg-" ++ toString (env.messageCount - 1)) saltMsg
      let finish : Except String (List Nat) :=
        match secretboxOpen env.ciphertext env.nonce messageKey with
        | none => .error "Decryption failed - invalid ciphertext or key"
        | some decrypted =>
          if strIncludes v "padded" then
            let paddingLength := decrypted.getD 0 0
            let messageLength := decrypted.getD 1 0
            let messageLength :=
              if messageLength = 255 then decrypted.length - paddingLength - 2
              else messageLength
            .ok ((decrypted.drop 2).take messageLength)
          else
            .ok decrypted
      match aadOpt with
      | some aadData =>
          if Bytes.raw (sha256 aadData) ≠ env.aad then
            .error "Invalid additional authenticated data"
          else finish
      | none => finish

/-- AmiXCrypto.decryptMessage: the try block body with every error rewrapped
by the catch as Message decryption failed: ... -/
def decryptMessage (env : Envelope) (st : RatchetState)
    (aadOpt : Option (List Nat)) (saltMsg : List Nat) : Except String (List Nat) :=
  (decryptMessageBody env st aadOpt saltMsg).mapError
    (fun e => "Message decryption failed: " ++ e)

/-- A fresh session, as a receiver holding the same pre-call state as the
sender would have it. -/
def c1State : RatchetState :=
  createRatchetState (Bytes.raw [10]) (privKey 0) (pubKey 1) [11] [12] 0

/-- C1: the round trip fails on the code.  First, encryptMessage always
raises ReferenceError (it calls the undefined addPadding before its try
block).  Second, even the try-block body alone does not round-trip: at the
concrete message "hi" and the fresh session c1State, the sender derives the
message key with random salt [21] and the receiver, holding the identical
pre-call state, derives it with its own fresh random salt [24], so
secretbox_open fails and decryptMessage rejects.  The code contradicts its
own test (crypto.test.js, "should encrypt and decrypt messages"). -/
theorem c1_roundTrip_fails :
    encryptMessage "hi" c1State = .error "ReferenceError: addPadding is not defined" ∧
    decryptMessage (encryptMessageBody "hi" c1State none ⟨[], [21], [22], [23]⟩ 5).1
        c1State none [24]
      = .error "Message decryption failed: Decryption failed - invalid ciphertext or key" :=
  ⟨rfl, rfl⟩

/-- Modelled from the spec: the known protocol versions are
cipher-suite dash schema-version with an optional padded marker, and the
only cipher suite and schema the code ships is xchacha20poly1305 1.0.0. -/
def isKnownVersion (v : String) : Bool :=
  v = "xchacha20poly1305-1.0.0" || v = "xchacha20poly1305-1.0.0-padded"

def c8State : RatchetState :=
  { rootKey := .raw [60], chainKey := .raw [50], ourPrivateKey := privKey 0,
    theirPublicKey := pubKey 1, messageCount := 0, timestamp := 0 }

/-- An envelope whose version is NOT a known protocol version but contains
the substring padded, with a ciphertext sealed under exactly the key the
receiver will derive (salt [9]). -/
def c8Env : Envelope :=
  { ciphertext := .boxSeal [0, 1, 42] [5] (deriveKey c8State.chainKey "amix-msg-0" [9]),
    nonce := [5], aad := .raw [], messageCount := 1, timestamp := 0,
    version := some "evil-padded" }

/-- C8 counterexample: the version evil-padded is not a known protocol
version, yet decryptMessage accepts the envelope and returns the plaintext
[42]: the version gate accepts ANY version string containing the substring
padded, refuting the claim that only envelopes carrying a known version are
ever decrypted. -/
theorem c8_counterexample :
    isKnownVersion "evil-padded" = false ∧
    decryptMessage c8Env c8State none [9] = .ok [42] :=
  ⟨rfl, rfl⟩

/-- C8 amended: decryptMessage rejects an envelope exactly when its version
field is absent, or is neither the exact string xchacha20poly1305-1.0.0 nor
contains the substring padded; version strings that merely contain padded
are accepted even when they are not known protocol versions. -/
theorem c8_amended (env : Envelope) (st : RatchetState)
    (aadOpt : Option (List Nat)) (salt : List Nat)
    (h : env.version = none ∨ ∃ v, env.version = some v ∧
      v ≠ "xchacha20poly1305-1.0.0" ∧ strIncludes v "padded" = false) :
    decryptMessage env st aadOpt salt =
      .error "Message decryption failed: Unsupported protocol version" := by
  rcases h with h | ⟨v, hv, hne, hpad⟩
  · simp only [decryptMessage, decryptMessageBody, h]
    rfl
  · simp only [decryptMessage, decryptMessageBody, hv]
    rw [if_pos ⟨hne, hpad⟩]
    rfl

/-- C8 amended, witnessed at a concrete input: an envelope with no version
field is rejected. -/
theorem c8_amended_witness :
    decryptMessage
      { ciphertext := .raw [], nonce := [], aad := .raw [], messageCount := 0,
        timestamp := 0, version := none } c8State none []
      = .error "Message decryption failed: Unsupported protocol version" :=
  c8_amended _ c8State none [] (Or.inl rfl)

/-! ## Identity key lifecycle: generateIdentityKeys -/

/-- One identity keypair record as generateIdentityKeys builds it. -/
structure IdentityKey where
  keyId : String
  privateKey : Bytes
  publicKey : Bytes
  createdAt : Nat
  expiresAt : Nat
  isCompromised : Bool
  deriving DecidableEq, Repr

/-- The identity key set: one current key plus a history of previous keys. -/
structure IdentityKeys where
  current : IdentityKey
  previous : List IdentityKey
  lastRotated : Nat
  rotationInterval : Nat
  nextRotation : Nat
  deriving DecidableEq, Repr

/-- One year in milliseconds (expiry horizon of a new identity key). -/
def yearMs : Nat := 365 * 24 * 60 * 60 * 1000

/-- Thirty days in milliseconds (the rotation interval). -/
def thirtyDaysMs : Nat := 30 * 24 * 60 * 60 * 1000

/-- AmiXCrypto.generateIdentityKeys(previousKeys): a fresh Curve25519
keypair (seed and uuid are the random draws) becomes the current key; the
history is the old current key consed onto the old history, truncated to 3
entries when longer; nothing is filtered. -/
def generateIdentityKeys (previousKeys : Option IdentityKeys) (now : Nat)
    (seed : Nat) (uuid : String) : IdentityKeys :=
  let current : IdentityKey :=
    { keyId := uuid, privateKey := privKey seed, publicKey := pubKey seed,
      createdAt := now, expiresAt := now + yearMs, isCompromised := false }
  let prev :=
    match previousKeys with
    | some p => p.current :: p.previous
    | none => []
  let prev := if prev.length > 3 then prev.take 3 else prev
  { current := current, previous := prev, lastRotated := now,
    rotationInterval := thirtyDaysMs, nextRotation := now + thirtyDaysMs }

/-- A key set whose current key is compromised and already expired, exactly
the state markKeyAsCompromised leaves behind before it rotates. -/
def c9OldKeys : IdentityKeys :=
  { current := { keyId := "old", privateKey := privKey 4, publicKey := pubKey 4,
                 createdAt := 0, expiresAt := 1, isCompromised := true },
    previous := [], lastRotated := 0, rotationInterval := thirtyDaysMs,
    nextRotation := 0 }

/-- C9 counterexample: rotating away from a compromised (and expired)
current key puts that key verbatim into the history of the new key set, so
the history does contain a compromised and expired key, refuting the claim
that expired and compromised keys are discarded. -/
theorem c9_counterexample :
    (generateIdentityKeys (some c9OldKeys) 1000 5 "u2").previous = [c9OldKeys.current] ∧
    c9OldKeys.current.isCompromised = true ∧
    c9OldKeys.current.expiresAt < 1000 := by
  refine ⟨rfl, rfl, ?_⟩
  decide

/-- C9 amended: generateIdentityKeys returns exactly one new current key
(fresh: not compromised, created now, expiring in a year) and a history
that is the previous current key consed onto the prior history, truncated
to at most 3 entries, with no filtering of expired or compromised keys. -/
theorem c9_amended (previousKeys : Option IdentityKeys) (now seed : Nat) (uuid : String) :
    (generateIdentityKeys previousKeys now seed uuid).current.isCompromised = false ∧
    (generateIdentityKeys previousKeys now seed uuid).current.createdAt = now ∧
    (generateIdentityKeys previousKeys now seed uuid).current.expiresAt = now + yearMs ∧
    (generateIdentityKeys previousKeys now seed uuid).previous =
      (match previousKeys with
        | some p => p.current :: p.previous
        | none => []).take 3 ∧
    (generateIdentityKeys previousKeys now seed uuid).previous.length ≤ 3 := by
  refine ⟨rfl, rfl, rfl, ?_, ?_⟩
  · simp only [generateIdentityKeys]
    split
    · rfl
    · next h => rw [List.take_of_length_le (by omega)]
  · simp only [generateIdentityKeys]
    split
    · next h => simp [List.length_take]
    · next h => omega

/-! ## Outbox message queue (AmiXMessageQueue)

The JS outbox is a Map; it is modelled as an association list with the Map
operations get and set.  set on an existing key replaces its value in
place; set on a fresh key appends. -/

/-- Map.prototype.get. -/
def assocGet {α β : Type} [BEq α] (m : List (α × β)) (k : α) : Option β :=
  (m.find? (fun p => p.1 == k)).map (·.2)

/-- Map.prototype.set. -/
def assocSet {α β : Type} [BEq α] (m : List (α × β)) (k : α) (v : β) : List (α × β) :=
  if m.any (fun p => p.1 == k) then
    m.map (fun p => if p.1 == k then (p.1, v) else p)
  else m ++ [(k, v)]

theorem assocGet_map_replace {α β : Type} [BEq α] [LawfulBEq α]
    (m : List (α × β)) (k : α) (v : β) :
    (assocGet m k).isSome = true →
    assocGet (m.map (fun p => if p.1 == k then (p.1, v) else p)) k = some v := by
  induction m with
  | nil => intro h; simp [assocGet] at h
  | cons p rest ih =>
      intro h
      by_cases hp : (p.1 == k) = true
      · simp [assocGet, List.find?, hp]
      · simp only [assocGet, List.map_cons, List.find?, hp, Bool.false_eq_true,
          if_false, if_neg] at h ⊢
        exact ih h

theorem assocGet_map_replace_ne {α β : Type} [BEq α] [LawfulBEq α]
    (m : List (α × β)) (k i : α) (v : β) (h : (k == i) = false) :
    assocGet (m.map (fun p => if p.1 == k then (p.1, v) else p)) i = assocGet m i := by
  induction m with
  | nil => rfl
  | cons p rest ih =>
      by_cases hp : (p.1 == k) = true
      · have hpk : p.1 = k := by simpa using hp
        have hpi : (p.1 == i) = false := by
          subst hpk; exact h
        simp [assocGet, List.find?, hp, hpi] at ih ⊢
        exact ih
      · by_cases hpi : (p.1 == i) = true
        · simp [assocGet, List.find?, hp, hpi]
        · simp [assocGet, List.find?, hp, hpi] at ih ⊢
          exact ih

theorem assocGet_append_single_ne {α β : Type} [BEq α]
    (m : List (α × β)) (k i : α) (v : β) (h : (k == i) = false) :
    assocGet (m ++ [(k, v)]) i = assocGet m i := by
  induction m with
  | nil => simp [assocGet, List.find?, h]
  | cons p rest ih =>
      by_cases hpi : (p.1 == i) = true
      · simp [assocGet, List.find?, hpi]
      · simp only [assocGet, List.cons_append, List.find?, hpi, Bool.false_eq_true,
          if_false] at ih ⊢
        exact ih

theorem assocGet_assocSet_self {α β : Type} [BEq α] [LawfulBEq α]
    (m : List (α × β)) (k : α) (v : β) :
    (assocGet m k).isSome = true → assocGet (assocSet m k v) k = some v := by
  intro h
  have hmem : m.any (fun p => p.1 == k) = true := by
    unfold assocGet at h
    cases hf : m.find? (fun p => p.1 == k) with
    | none => rw [hf] at h; simp at h
    | some q =>
        have hq := List.find?_some hf
        have hm := List.mem_of_find?_eq_some hf
        exact List.any_eq_true.mpr ⟨q, hm, hq⟩
  unfold assocSet
  rw [if_pos hmem]
  exact assocGet_map_replace m k v h

theorem assocGet_assocSet_ne {α β : Type} [BEq α] [LawfulBEq α]
    (m : List (α × β)) (k i : α) (v : β) (h : (k == i) = false) :
    assocGet (assocSet m k v) i = assocGet m i := by
  unfold assocSet
  split
  · exact assocGet_map_replace_ne m k i v h
  · exact assocGet_append_single_ne m k i v h

/-- Outbox item status; the code only ever assigns pending, sent, failed. -/
inductive MsgStatus where
  | pending
  | sent
  | failed
  deriving DecidableEq, Repr

/-- One outbox entry as addToOutbox creates it and the mark functions
update it. -/
structure OutboxItem where
  id : String
  recipientId : String
  timestamp : Nat
  retryCount : Nat
  lastRetry : Option Nat
  status : MsgStatus
  priority : String
  failureReason : Option String
  sentAt : Option Nat
  failedAt : Option Nat
  deriving DecidableEq, Repr

/-- The outbox Map of AmiXMessageQueue. -/
abbrev Outbox := List (String × OutboxItem)

/-- AmiXMessageQueue.maxRetries. -/
def maxRetries : Nat := 5

/-- AmiXMessageQueue.retryDelays (exponential backoff schedule). -/
def retryDelays : List Nat := [1000, 2000, 5000, 10000, 30000, 60000]

/-- AmiXMessageQueue.getRetryDelay: index the schedule, clamped at the end. -/
def getRetryDelay (retryCount : Nat) : Nat :=
  retryDelays.getD (min retryCount (retryDelays.length - 1)) 0

/-- The common shape of the three mark functions: get the item by id, do
nothing when absent, otherwise update it in place. -/
def updateItem (m : Outbox) (messageId : String) (f : OutboxItem → OutboxItem) : Outbox :=
  match assocGet m messageId with
  | none => m
  | some it => assocSet m messageId (f it)

/-- AmiXMessageQueue.markMessageSent: if the id is present, set status sent
and stamp sentAt (there is no check of the previous status). -/
def markMessageSent (m : Outbox) (messageId : String) (now : Nat) : Outbox :=
  updateItem m messageId (fun it => { it with status := .sent, sentAt := some now })

/-- AmiXMessageQueue.markMessageRetry: increment retryCount, stamp
lastRetry. -/
def markMessageRetry (m : Outbox) (messageId : String) (now : Nat) : Outbox :=
  updateItem m messageId
    (fun it => { it with retryCount := it.retryCount + 1, lastRetry := some now })

/-- The failed copy of an item: status failed, the failure reason, and
failedAt stamped. -/
def failedCopy (it : OutboxItem) (reason : String) (now : Nat) : OutboxItem :=
  { it with status := .failed, failureReason := some reason, failedAt := some now }

/-- AmiXMessageQueue.markMessageFailed: set status failed with the reason
and stamp failedAt. -/
def markMessageFailed (m : Outbox) (messageId : String) (reason : String) (now : Nat) :
    Outbox :=
  updateItem m messageId (fun it => failedCopy it reason now)

/-- Whether the item sits inside its backoff window at time now: the JS is
if (outboxItem.lastRetry) followed by the window comparison, so a lastRetry
of null (none) or 0 (falsy) skips the backoff check. -/
def inBackoff (item : OutboxItem) (now : Nat) : Bool :=
  match item.lastRetry with
  | some t => t != 0 && decide (now - t < getRetryDelay item.retryCount)
  | none => false

/-- AmiXMessageQueue.processMessage(item): at the retry cap, mark failed
with reason max_retries_exceeded and do not attempt; inside the backoff
window, skip; otherwise attempt delivery (sendOk abstracts the transport
outcome of sendMessage) and mark sent or retry.  The Bool returned records
whether a delivery attempt was made. -/
def processMessage (m : Outbox) (item : OutboxItem) (now : Nat) (sendOk : Bool) :
    Outbox × Bool :=
  if item.retryCount ≥ maxRetries then
    (markMessageFailed m item.id "max_retries_exceeded" now, false)
  else if inBackoff item now then
    (m, false)
  else if sendOk then
    (markMessageSent m item.id now, true)
  else
    (markMessageRetry m item.id now, true)

/-- Whether processMessage makes a delivery attempt for this item at time
now. -/
def willAttempt (item : OutboxItem) (now : Nat) : Bool :=
  decide (item.retryCount < maxRetries) && !inBackoff item now

/-- The priorityOrder lookup of the processQueue comparator, high 3,
normal 2, low 1, anything else defaulted to 2 by the JS || 2. -/
def priorityRank (p : String) : Nat :=
  if p = "high" then 3 else if p = "normal" then 2 else if p = "low" then 1 else 2

/-- The processQueue comparator as a total preorder: a sorts no later than
b when a has strictly higher priority rank, or equal rank and no later
timestamp. -/
def queueLE (a b : OutboxItem) : Prop :=
  priorityRank b.priority < priorityRank a.priority ∨
    (priorityRank a.priority = priorityRank b.priority ∧ a.timestamp ≤ b.timestamp)

instance : DecidableRel queueLE := fun a b => by
  unfold queueLE; exact inferInstance

instance : IsTotal OutboxItem queueLE :=
  ⟨by intro a b; unfold queueLE; omega⟩

instance : IsTrans OutboxItem queueLE :=
  ⟨by intro a b c; unfold queueLE; omega⟩

/-- The pending snapshot of processQueue: the pending items of the outbox
sorted by the comparator (priority descending, timestamp ascending).  The
JS Array.prototype.sort is stable and the comparator is a consistent total
preorder, so the result is the insertion sort by queueLE. -/
def pendingSorted (m : Outbox) : List OutboxItem :=
  ((m.map (·.2)).filter (fun it => it.status == MsgStatus.pending)).insertionSort queueLE

/-- The state AmiXMessageQueue holds: the outbox Map plus the monitored
network status string. -/
structure QueueState where
  outbox : Outbox
  networkStatus : String

/-- One step of the processQueue loop body over the sorted snapshot. -/
def processStep (now : Nat) (sendOk : String → Bool) (acc : Outbox × List String)
    (item : OutboxItem) : Outbox × List String :=
  let r := processMessage acc.1 item now (sendOk item.id)
  (r.1, if r.2 then acc.2 ++ [item.id] else acc.2)

/-- AmiXMessageQueue.processQueue: a no-op unless networkStatus is online;
otherwise iterate processMessage over the sorted pending snapshot.  sendOk
gives the transport outcome per item id; the returned list collects, in
order, the ids for which a delivery attempt was made. -/
def processQueue (s : QueueState) (now : Nat) (sendOk : String → Bool) :
    QueueState × List String :=
  if s.networkStatus ≠ "online" then (s, [])
  else
    let r := (pendingSorted s.outbox).foldl (processStep now sendOk) (s.outbox, [])
    ({ s with outbox := r.1 }, r.2)

/-- One automatic 5-second tick of the queue: the environment may have
changed the network status (monitorNetworkStatus), then processQueue runs. -/
structure Tick where
  networkStatus : String
  now : Nat
  sendOk : String → Bool

/-- A run of successive automatic processQueue ticks, collecting the
attempted ids of each tick. -/
def runTicks (s : QueueState) : List Tick → QueueState × List (List String)
  | [] => (s, [])
  | t :: rest =>
      let r := processQueue { s with networkStatus := t.networkStatus } t.now t.sendOk
      let r2 := runTicks r.1 rest
      (r2.1, r.2 :: r2.2)

/-- AmiXMessageQueue.handleAcknowledgment: markMessageSent on the
acknowledged message id, whatever the status of that item currently is. -/
def handleAcknowledgment (m : Outbox) (messageId : String) (now : Nat) : Outbox :=
  markMessageSent m messageId now

theorem updateItem_get_self (m : Outbox) (i : String) (f : OutboxItem → OutboxItem)
    (it : OutboxItem) (h : assocGet m i = some it) :
    assocGet (updateItem m i f) i = some (f it) := by
  unfold updateItem
  rw [h]
  exact assocGet_assocSet_self m i (f it) (by rw [h]; rfl)

theorem updateItem_get_ne (m : Outbox) (i j : String) (f : OutboxItem → OutboxItem)
    (h : (i == j) = false) :
    assocGet (updateItem m i f) j = assocGet m j := by
  unfold updateItem
  cases hg : assocGet m i with
  | none => rfl
  | some it => exact assocGet_assocSet_ne m i j (f it) h

/-- C10: handleAcknowledgment on an id present in the outbox sets that item
to status sent with sentAt stamped, regardless of its previous status
(there is no status check, so an item already marked failed leaves the
failed state without a manual retry); every other key is untouched, and an
id absent from the outbox leaves the outbox unchanged. -/
theorem c10_ack_marks_sent :
    ∀ (m : Outbox) (i : String) (now : Nat),
      (∀ it, assocGet m i = some it →
        assocGet (handleAcknowledgment m i now) i =
          some { it with status := .sent, sentAt := some now } ∧
        ∀ j, (i == j) = false →
          assocGet (handleAcknowledgment m i now) j = assocGet m j) ∧
      (assocGet m i = none → handleAcknowledgment m i now = m) := by
  intro m i now
  constructor
  · intro it hit
    constructor
    · exact updateItem_get_self m i _ it hit
    · intro j hj
      exact updateItem_get_ne m i j _ hj
  · intro h
    unfold handleAcknowledgment markMessageSent updateItem
    rw [h]

/-- An outbox item that has exhausted its retries and is marked failed. -/
def c10Item : OutboxItem :=
  { id := "a", recipientId := "bob", timestamp := 3, retryCount := 5,
    lastRetry := some 4, status := .failed, priority := "normal",
    failureReason := some "max_retries_exceeded", sentAt := none, failedAt := some 4 }

/-- C10 witnessed concretely: acknowledging a failed item marks it sent,
and acknowledging an unknown id changes nothing. -/
theorem c10_witness :
    assocGet (handleAcknowledgment [("a", c10Item)] "a" 7) "a" =
      some { c10Item with status := .sent, sentAt := some 7 } ∧
    handleAcknowledgment [("b", c10Item)] "a" 7 = [("b", c10Item)] :=
  ⟨((c10_ack_marks_sent [("a", c10Item)] "a" 7).1 c10Item rfl).1,
   (c10_ack_marks_sent [("b", c10Item)] "a" 7).2 rfl⟩

theorem processMessage_snd (m : Outbox) (item : OutboxItem) (now : Nat) (b : Bool) :
    (processMessage m item now b).2 = willAttempt item now := by
  unfold processMessage willAttempt
  rcases Nat.lt_or_ge item.retryCount maxRetries with h1 | h1
  · rw [if_neg (by omega)]
    by_cases h2 : inBackoff item now
    · simp [h2, decide_eq_true h1]
    · by_cases h3 : b <;> simp [h2, h3, decide_eq_true h1]
  · rw [if_pos h1]
    simp [decide_eq_false (by omega : ¬item.retryCount < maxRetries)]

theorem foldl_processStep_snd (items : List OutboxItem) (m : Outbox) (acc : List String)
    (now : Nat) (sendOk : String → Bool) :
    (items.foldl (processStep now sendOk) (m, acc)).2 =
      acc ++ (items.filter (fun it => willAttempt it now)).map (·.id) := by
  induction items generalizing m acc with
  | nil => simp
  | cons it rest ih =>
      simp only [List.foldl_cons, List.filter_cons]
      by_cases h : willAttempt it now
      · rw [show processStep now sendOk (m, acc) it =
            ((processMessage m it now (sendOk it.id)).1, acc ++ [it.id]) by
          simp [processStep, processMessage_snd, h]]
        rw [ih, h]
        simp
      · rw [show processStep now sendOk (m, acc) it =
            ((processMessage m it now (sendOk it.id)).1, acc) by
          simp [processStep, processMessage_snd, h]]
        rw [ih, eq_false_of_ne_true h]
        rfl

/-- C6: processQueue attempts nothing and changes nothing unless the
network status is online; the pending snapshot it iterates is a permutation
of the pending items of the outbox, ordered so that every item of strictly
higher priority rank (high 3, normal 2, low 1) comes first and, within a
rank, timestamps ascend (FIFO); and when online, the delivery attempts made
are exactly the non-skipped snapshot items, in that order. -/
theorem c6_processQueue_order :
    (∀ (s : QueueState) (now : Nat) (sendOk : String → Bool),
        s.networkStatus ≠ "online" → processQueue s now sendOk = (s, [])) ∧
    (∀ m : Outbox,
        List.Perm (pendingSorted m)
          ((m.map (·.2)).filter (fun it => it.status == MsgStatus.pending)) ∧
        (pendingSorted m).Pairwise (fun a b =>
          priorityRank b.priority ≤ priorityRank a.priority ∧
            (priorityRank a.priority = priorityRank b.priority →
              a.timestamp ≤ b.timestamp))) ∧
    (∀ (s : QueueState) (now : Nat) (sendOk : String → Bool),
        s.networkStatus = "online" →
        (processQueue s now sendOk).2 =
          ((pendingSorted s.outbox).filter (fun it => willAttempt it now)).map (·.id)) := by
  refine ⟨?_, ?_, ?_⟩
  · intro s now sendOk h
    simp [processQueue, h]
  · intro m
    constructor
    · exact List.perm_insertionSort queueLE _
    · refine List.Pairwise.imp ?_ (List.sorted_insertionSort queueLE _)
      intro a b hab
      unfold queueLE at hab
      omega
  · intro s now sendOk h
    simp only [processQueue, h, ne_eq, not_true_eq_false, if_false, ite_false]
    simpa using foldl_processStep_snd (pendingSorted s.outbox) s.outbox [] now sendOk

/-- A pending item ready for delivery. -/
def c6Pending : OutboxItem :=
  { c10Item with retryCount := 0, lastRetry := none, status := .pending }

/-- An online queue holding the single pending item. -/
def c6State : QueueState :=
  { outbox := [("a", c6Pending)], networkStatus := "online" }

/-- C6 witnessed concretely: an offline queue does nothing, and an online
queue with one pending item attempts exactly it. -/
theorem c6_witness :
    processQueue { outbox := [], networkStatus := "offline" } 0 (fun _ => true) =
      ({ outbox := [], networkStatus := "offline" }, []) ∧
    (processQueue c6State 9 (fun _ => true)).2 =
      ((pendingSorted c6State.outbox).filter (fun it => willAttempt it 9)).map (·.id) :=
  ⟨c6_processQueue_order.1 { outbox := [], networkStatus := "offline" } 0 (fun _ => true)
      (by decide),
   c6_processQueue_order.2.2 c6State 9 (fun _ => true) rfl⟩

/-- Well-formedness of the outbox Map as the code maintains it: unique keys
(it is a JS Map) and every item stored under its own id (addToOutbox and
the mark functions keep it that way). -/
def OutboxWF (m : Outbox) : Prop :=
  (m.map (·.1)).Nodup ∧ ∀ p ∈ m, p.2.id = p.1

theorem assocGet_isSome_any {α β : Type} [BEq α] (m : List (α × β)) (k : α)
    (h : (assocGet m k).isSome = true) : m.any (fun p => p.1 == k) = true := by
  unfold assocGet at h
  cases hf : m.find? (fun p => p.1 == k) with
  | none => rw [hf] at h; simp at h
  | some q =>
      have hq := List.find?_some hf
      have hm := List.mem_of_find?_eq_some hf
      exact List.any_eq_true.mpr ⟨q, hm, hq⟩

theorem assocSet_keys_of_mem {α β : Type} [BEq α] (m : List (α × β)) (k : α) (v : β)
    (h : m.any (fun p => p.1 == k) = true) :
    (assocSet m k v).map (·.1) = m.map (·.1) := by
  unfold assocSet
  rw [if_pos h]
  clear h
  induction m with
  | nil => rfl
  | cons p rest ih =>
      simp only [List.map_cons]
      rw [show ((if (p.1 == k) = true then (p.1, v) else p)).1 = p.1 by split <;> rfl, ih]

theorem assocGet_wf_id (m : Outbox) (i : String) (it : OutboxItem)
    (hwf : ∀ p ∈ m, p.2.id = p.1) (h : assocGet m i = some it) : it.id = i := by
  unfold assocGet at h
  cases hf : m.find? (fun p => p.1 == i) with
  | none => rw [hf] at h; simp at h
  | some q =>
      rw [hf] at h
      simp only [Option.map_some'] at h
      have h3 : q.2 = it := Option.some.inj h
      have hq := List.find?_some hf
      have hm := List.mem_of_find?_eq_some hf
      have h1 : q.1 = i := by simpa using hq
      have h2 := hwf q hm
      rw [← h3, h2, h1]

theorem updateItem_wf (m : Outbox) (i : String) (f : OutboxItem → OutboxItem)
    (hid : ∀ it, (f it).id = it.id) (hwf : OutboxWF m) : OutboxWF (updateItem m i f) := by
  cases hg : assocGet m i with
  | none =>
      have hred : updateItem m i f = m := by unfold updateItem; rw [hg]
      rw [hred]; exact hwf
  | some it =>
      have hred : updateItem m i f = assocSet m i (f it) := by unfold updateItem; rw [hg]
      rw [hred]
      have hisome : (assocGet m i).isSome = true := by rw [hg]; rfl
      have hany := assocGet_isSome_any m i hisome
      constructor
      · rw [assocSet_keys_of_mem m i (f it) hany]
        exact hwf.1
      · unfold assocSet
        rw [if_pos hany]
        intro p hp
        rcases List.mem_map.mp hp with ⟨q, hq, rfl⟩
        by_cases hqk : (q.1 == i) = true
        · have hiti : it.id = i := assocGet_wf_id m i it hwf.2 hg

          have hq1 : q.1 = i := by simpa using hqk
          simp only [hqk, if_true]
          rw [hid it, hiti, hq1]
        · simp only [hqk, Bool.false_eq_true, if_false]
          exact hwf.2 q hq

theorem processMessage_wf (m : Outbox) (item : OutboxItem) (now : Nat) (b : Bool)
    (hwf : OutboxWF m) : OutboxWF (processMessage m item now b).1 := by
  unfold processMessage
  by_cases h1 : item.retryCount ≥ maxRetries
  · rw [if_pos h1]
    exact updateItem_wf m item.id _ (fun it => rfl) hwf
  · rw [if_neg h1]
    by_cases h2 : inBackoff item now
    · rw [if_pos h2]; exact hwf
    · rw [if_neg (by simpa using h2)]
      by_cases h3 : b
      · rw [if_pos h3]
        exact updateItem_wf m item.id _ (fun it => rfl) hwf
      · rw [if_neg h3]
        exact updateItem_wf m item.id _ (fun it => rfl) hwf

theorem processMessage_get_ne (m : Outbox) (item : OutboxItem) (now : Nat) (b : Bool)
    (i : String) (h : (item.id == i) = false) :
    assocGet (processMessage m item now b).1 i = assocGet m i := by
  unfold processMessage
  by_cases h1 : item.retryCount ≥ maxRetries
  · rw [if_pos h1]
    exact updateItem_get_ne m item.id i _ h
  · rw [if_neg h1]
    by_cases h2 : inBackoff item now
    · rw [if_pos h2]
    · rw [if_neg (by simpa using h2)]
      by_cases h3 : b
      · rw [if_pos h3]
        exact updateItem_get_ne m item.id i _ h
      · rw [if_neg h3]
        exact updateItem_get_ne m item.id i _ h

theorem assocGet_eq_of_mem_nodup {α β : Type} [BEq α] [LawfulBEq α]
    (m : List (α × β)) (i : α) (it pit : β)
    (hnd : (m.map (·.1)).Nodup) (hget : assocGet m i = some it)
    (hmem : (i, pit) ∈ m) : pit = it := by
  induction m with
  | nil => cases hmem
  | cons p rest ih =>
      rw [List.map_cons] at hnd
      have hnd2 := List.nodup_cons.mp hnd
      rcases List.mem_cons.mp hmem with heq | hmem2
      · rw [← heq] at hget
        unfold assocGet at hget
        simp [List.find?] at hget
        exact hget
      · have hikeys : i ∈ rest.map (·.1) :=
          List.mem_map.mpr ⟨(i, pit), hmem2, rfl⟩
        by_cases hp : (p.1 == i) = true
        · exfalso
          have hp1 : p.1 = i := by simpa using hp
          rw [← hp1] at hikeys
          exact hnd2.1 hikeys
        · unfold assocGet at hget
          simp only [List.find?, hp, Bool.false_eq_true, if_false] at hget
          exact ih hnd2.2 hget hmem2

theorem pending_ne_failed (m : Outbox) (i : String) (it : OutboxItem)
    (hwf : OutboxWF m) (hget : assocGet m i = some it) (hst : it.status = .failed) :
    ∀ pit ∈ pendingSorted m, (pit.id == i) = false := by
  intro pit hp
  have hp2 : pit ∈ (m.map (·.2)).filter (fun x => x.status == MsgStatus.pending) :=
    (List.perm_insertionSort queueLE _).subset hp
  have hval : pit ∈ m.map (·.2) := (List.mem_filter.mp hp2).1
  have hpend : (pit.status == MsgStatus.pending) = true := (List.mem_filter.mp hp2).2
  rcases List.mem_map.mp hval with ⟨q, hq, rfl⟩
  by_cases hqi : (q.2.id == i) = true
  · exfalso
    have hq1 : q.2.id = q.1 := hwf.2 q hq
    have hqi1 : q.1 = i := by rw [← hq1]; simpa using hqi
    have hiq : (i, q.2) ∈ m := by rw [← hqi1]; exact hq
    have heq := assocGet_eq_of_mem_nodup m i it q.2 hwf.1 hget hiq
    rw [heq, hst] at hpend
    simp at hpend
  · exact eq_false_of_ne_true hqi

theorem foldl_processStep_get (items : List OutboxItem) (m : Outbox) (acc : List String)
    (now : Nat) (sendOk : String → Bool) (i : String) :
    (∀ it ∈ items, (it.id == i) = false) →
    assocGet ((items.foldl (processStep now sendOk) (m, acc)).1) i = assocGet m i := by
  induction items generalizing m acc with
  | nil => intro _; rfl
  | cons it rest ih =>
      intro hids
      simp only [List.foldl_cons]
      rw [ih _ _ (fun x hx => hids x (List.mem_cons_of_mem _ hx))]
      exact processMessage_get_ne m it now _ i (hids it (List.mem_cons_self _ _))

theorem foldl_processStep_wf (items : List OutboxItem) (m : Outbox) (acc : List String)
    (now : Nat) (sendOk : String → Bool) :
    OutboxWF m → OutboxWF ((items.foldl (processStep now sendOk) (m, acc)).1) := by
  induction items generalizing m acc with
  | nil => intro h; exact h
  | cons it rest ih =>
      intro h
      simp only [List.foldl_cons]
      exact ih _ _ (processMessage_wf m it now _ h)

theorem processQueue_failed_invariant (s : QueueState) (now : Nat) (sendOk : String → Bool)
    (i : String) (it : OutboxItem) (hwf : OutboxWF s.outbox)
    (hget : assocGet s.outbox i = some it) (hst : it.status = .failed) :
    OutboxWF (processQueue s now sendOk).1.outbox ∧
    assocGet (processQueue s now sendOk).1.outbox i = some it ∧
    ∀ j ∈ (processQueue s now sendOk).2, j ≠ i := by
  unfold processQueue
  by_cases h : s.networkStatus ≠ "online"
  · rw [if_pos h]
    exact ⟨hwf, hget, by simp⟩
  · rw [if_neg h]
    have hids := pending_ne_failed s.outbox i it hwf hget hst
    refine ⟨?_, ?_, ?_⟩
    · exact foldl_processStep_wf _ _ _ _ _ hwf
    · rw [foldl_processStep_get _ _ _ _ _ i (fun x hx => hids x hx)]
      exact hget
    · intro j hj heq
      rw [foldl_processStep_snd] at hj
      simp only [List.nil_append] at hj
      rcases List.mem_map.mp hj with ⟨pit, hpmem, rfl⟩
      have hne := hids pit (List.mem_filter.mp hpmem).1
      rw [heq] at hne
      simp at hne

theorem runTicks_failed_invariant (ticks : List Tick) (s : QueueState) (i : String)
    (it : OutboxItem) (hwf : OutboxWF s.outbox) (hget : assocGet s.outbox i = some it)
    (hst : it.status = .failed) :
    assocGet (runTicks s ticks).1.outbox i = some it ∧
    ∀ a ∈ (runTicks s ticks).2, i ∉ a := by
  induction ticks generalizing s with
  | nil => exact ⟨hget, by simp [runTicks]⟩
  | cons t rest ih =>
      have hq := processQueue_failed_invariant
        { s with networkStatus := t.networkStatus } t.now t.sendOk i it hwf hget hst
      simp only [runTicks]
      have ih2 := ih _ hq.1 hq.2.1
      refine ⟨ih2.1, ?_⟩
      intro a ha
      rcases List.mem_cons.mp ha with rfl | ha2
      · intro hmem
        exact (hq.2.2 i hmem) rfl
      · exact ih2.2 a ha2

/-- C5: an outbox item whose retryCount has reached the configured maximum
maxRetries = 5 is marked failed with reason max_retries_exceeded by
processMessage with no delivery attempt made; and once an item is failed it
stays failed, unchanged and never attempted, across every later automatic
processQueue tick (for a well-formed outbox Map: unique keys, items stored
under their own ids). -/
theorem c5_max_retries_permanent :
    (∀ (m : Outbox) (item : OutboxItem) (now : Nat) (sendOk : Bool),
        item.retryCount = maxRetries →
        processMessage m item now sendOk =
          (markMessageFailed m item.id "max_retries_exceeded" now, false) ∧
        ∀ it0, assocGet m item.id = some it0 →
          assocGet (processMessage m item now sendOk).1 item.id =
            some (failedCopy it0 "max_retries_exceeded" now)) ∧
    (∀ (ticks : List Tick) (s : QueueState) (i : String) (it : OutboxItem),
        OutboxWF s.outbox → assocGet s.outbox i = some it → it.status = .failed →
        assocGet (runTicks s ticks).1.outbox i = some it ∧
        ∀ a ∈ (runTicks s ticks).2, i ∉ a) := by
  constructor
  · intro m item now sendOk h
    have heq : processMessage m item now sendOk =
        (markMessageFailed m item.id "max_retries_exceeded" now, false) := by
      unfold processMessage
      rw [if_pos (by omega)]
    refine ⟨heq, ?_⟩
    intro it0 hit0
    rw [heq]
    exact updateItem_get_self m item.id _ it0 hit0
  · intro ticks s i it hwf hget hst
    exact runTicks_failed_invariant ticks s i it hwf hget hst

/-- A pending item that has already used up its five retries. -/
def c5Capped : OutboxItem := { c10Item with status := .pending }

/-- C5 witnessed concretely: the capped item is marked failed without an
attempt, and an already failed item survives two online ticks unchanged. -/
theorem c5_witness :
    processMessage [("a", c5Capped)] c5Capped 9 true =
      (markMessageFailed [("a", c5Capped)] "a" "max_retries_exceeded" 9, false) ∧
    assocGet (runTicks { outbox := [("a", c10Item)], networkStatus := "online" }
        [⟨"online", 5, fun _ => true⟩, ⟨"online", 10, fun _ => true⟩]).1.outbox "a" =
      some c10Item :=
  ⟨(c5_max_retries_permanent.1 [("a", c5Capped)] c5Capped 9 true rfl).1,
   (c5_max_retries_permanent.2 [⟨"online", 5, fun _ => true⟩, ⟨"online", 10, fun _ => true⟩]
      { outbox := [("a", c10Item)], networkStatus := "online" } "a" c10Item
      (by constructor
          · decide
          · decide) rfl rfl).1⟩

/-! ## Group crypto (GroupCrypto) -/

/-- Ed25519 public key of the signing keypair with seed s. -/
def signPub (s : Nat) : Bytes := .raw [8, s]

/-- Ed25519 private key of the signing keypair with seed s. -/
def signPriv (s : Nat) : Bytes := .raw [9, s]

/-- AmiXCrypto.verifyMessageIntegrity in the symbolic model: a signature
verifies exactly when it was produced over the same message by the private
key paired with the given public key. -/
def verifyIntegrity (message : List Nat) (signature publicKey : Bytes) : Bool :=
  match signature, publicKey with
  | .signed m (.raw [9, s]), .raw [8, t] => m == message && s == t
  | _, _ => false

/-- One stored group member: the key material groupCrypto reads plus the
admin flag. -/
structure GroupMember where
  publicKey : Bytes
  privateKey : Bytes
  isAdmin : Bool
  deriving DecidableEq, Repr

/-- The group signing keypair. -/
structure SigningKeyPair where
  publicKey : Bytes
  privateKey : Bytes
  deriving DecidableEq, Repr

/-- A group state as createGroup builds it (the encryption keypair is a
key set from AmiXCrypto.generateIdentityKeys). -/
structure GroupState where
  groupId : String
  members : List (String × GroupMember)
  signingKeyPair : SigningKeyPair
  encryptionKeyPair : IdentityKeys
  keyRotationInterval : Nat
  nextKeyRotation : Nat
  createdAt : Nat
  updatedAt : Nat
  lastKeyRotation : Nat
  version : String
  deriving DecidableEq, Repr

/-- The AmiXStorage state the group functions read and write: the stored
groups and the ratchet states keyed groupId:senderId:recipientId. -/
structure GroupStorage where
  groups : List (String × GroupState)
  ratchetStates : List ((String × String × String) × RatchetState)
  deriving DecidableEq, Repr

/-- AmiXStorage.getGroup. -/
def getGroup (st : GroupStorage) (groupId : String) : Option GroupState :=
  assocGet st.groups groupId

/-- AmiXStorage.getRatchetState for a group member pair. -/
def getRatchetState (st : GroupStorage) (groupId senderId recipientId : String) :
    Option RatchetState :=
  assocGet st.ratchetStates (groupId, senderId, recipientId)

/-- AmiXStorage.storeGroup. -/
def storeGroup (st : GroupStorage) (g : GroupState) : GroupStorage :=
  { st with groups := assocSet st.groups g.groupId g }

/-- Split a character list at the dots (the split of String.prototype). -/
def splitDot : List Char → List (List Char)
  | [] => [[]]
  | c :: rest =>
      let r := splitDot rest
      if c = '.' then [] :: r
      else
        match r with
        | h :: t => (c :: h) :: t
        | [] => [[c]]

/-- Digits to the number they denote (the JS Number() on the all-digit
components of a version string). -/
def charsToNat (l : List Char) : Nat :=
  l.foldl (fun acc c => acc * 10 + (c.toNat - 48)) 0

/-- Increment the last entry of a list. -/
def incLast : List Nat → List Nat
  | [] => []
  | [x] => [x + 1]
  | x :: rest => x :: incLast rest

/-- GroupCrypto._incrementVersion: split the version on dots, increment the
last component, rejoin with dots. -/
def incrementVersion (version : String) : String :=
  let parts := (splitDot version.toList).map charsToNat
  String.intercalate "." ((incLast parts).map toString)

/-- The updated group state removeMember stores on success: the member
entry deleted, the last version component incremented, updatedAt stamped.
The ratchet sessions and the encryption keypair are untouched, and
_scheduleKeyRotation only arms a timer (the rotationTimer handle), so no
stored field changes for it. -/
def removedGroup (g : GroupState) (memberIdToRemove : String) (now : Nat) : GroupState :=
  { g with
    members := g.members.filter (fun p => !(p.1 == memberIdToRemove)),
    version := incrementVersion g.version,
    updatedAt := now }

/-- GroupCrypto.removeMember(groupId, remover, memberIdToRemove): group
lookup, admin check on the remover (optional chaining: a missing remover
counts as not admin), membership check on the target, then store the
updated group.  The storage is returned in both outcomes so the error
paths exhibit it unchanged. -/
def removeMember (st : GroupStorage) (groupId removerId memberIdToRemove : String)
    (now : Nat) : GroupStorage × Except String GroupState :=
  match getGroup st groupId with
  | none => (st, .error "Group not found")
  | some g =>
    if !(((assocGet g.members removerId).map (·.isAdmin)).getD false) then
      (st, .error "Only admins can remove members")
    else
      match assocGet g.members memberIdToRemove with
      | none => (st, .error "Member not found in group")
      | some _ =>
          (storeGroup st (removedGroup g memberIdToRemove now),
           .ok (removedGroup g memberIdToRemove now))

/-- An admin member. -/
def c4Alice : GroupMember :=
  { publicKey := pubKey 0, privateKey := privKey 0, isAdmin := true }

/-- A non-admin member. -/
def c4Bob : GroupMember :=
  { publicKey := pubKey 1, privateKey := privKey 1, isAdmin := false }

/-- The group encryption key set. -/
def c4Keys : IdentityKeys := generateIdentityKeys none 0 9 "gk"

/-- A two-member group, alice the admin. -/
def c4Group : GroupState :=
  { groupId := "g", members := [("alice", c4Alice), ("bob", c4Bob)],
    signingKeyPair := { publicKey := signPub 0, privateKey := signPriv 0 },
    encryptionKeyPair := c4Keys, keyRotationInterval := 1000, nextKeyRotation := 1000,
    createdAt := 0, updatedAt := 0, lastKeyRotation := 0, version := "1.0.0" }

/-- A ratchet session of the member being removed. -/
def c4BobSession : RatchetState :=
  { rootKey := .raw [70], chainKey := .raw [71], ourPrivateKey := privKey 1,
    theirPublicKey := pubKey 0, messageCount := 0, timestamp := 0 }

/-- Storage holding the group and bobs session. -/
def c4Storage : GroupStorage :=
  { groups := [("g", c4Group)], ratchetStates := [(("g", "bob", "alice"), c4BobSession)] }

/-- C4 counterexample: alice (an admin) removes bob (a member); the call
succeeds and does increment the version, yet bobs ratchet session is still
stored and the group encryption keypair is unchanged — no session deletion
and no keypair replacement happen before returning (only a rotation timer
is armed), refuting the claim. -/
theorem c4_counterexample :
    (removeMember c4Storage "g" "alice" "bob" 50).1.ratchetStates =
      c4Storage.ratchetStates ∧
    getRatchetState (removeMember c4Storage "g" "alice" "bob" 50).1 "g" "bob" "alice" =
      some c4BobSession ∧
    ((removeMember c4Storage "g" "alice" "bob" 50).2.toOption.map (·.encryptionKeyPair)) =
      some c4Group.encryptionKeyPair ∧
    ((removeMember c4Storage "g" "alice" "bob" 50).2.toOption.map (·.version)) =
      some "1.0.1" :=
  ⟨rfl, rfl, rfl, rfl⟩

/-- C4 amended: when the remover is an admin and the target is a member,
removeMember deletes the target from the members map, increments the last
version component, stamps updatedAt and stores the group — but it does not
delete the targets ratchet sessions and does not replace the group
encryption keypair (a rotation is only scheduled on a timer); when the
remover is not an admin or the target is not a member, it fails and the
stored state is unchanged. -/
theorem c4_amended :
    (∀ (st : GroupStorage) (gid rid mid : String) (now : Nat) (g : GroupState),
        getGroup st gid = some g →
        ((assocGet g.members rid).map (·.isAdmin)).getD false = true →
        (assocGet g.members mid).isSome = true →
        removeMember st gid rid mid now =
          (storeGroup st (removedGroup g mid now), .ok (removedGroup g mid now)) ∧
        assocGet (removedGroup g mid now).members mid = none ∧
        (removedGroup g mid now).version = incrementVersion g.version ∧
        (removedGroup g mid now).updatedAt = now ∧
        (removedGroup g mid now).encryptionKeyPair = g.encryptionKeyPair ∧
        (storeGroup st (removedGroup g mid now)).ratchetStates = st.ratchetStates) ∧
    (∀ (st : GroupStorage) (gid rid mid : String) (now : Nat) (g : GroupState),
        getGroup st gid = some g →
        (((assocGet g.members rid).map (·.isAdmin)).getD false = false ∨
          assocGet g.members mid = none) →
        (removeMember st gid rid mid now).1 = st ∧
        (removeMember st gid rid mid now).2.isOk = false) := by
  constructor
  · intro st gid rid mid now g hg hadmin hmem
    have hstep : removeMember st gid rid mid now =
        (storeGroup st (removedGroup g mid now), .ok (removedGroup g mid now)) := by
      unfold removeMember
      rw [hg]
      simp only [hadmin, Option.getD_some, Bool.not_true, Bool.false_eq_true, if_false]
      cases hm : assocGet g.members mid with
      | none => rw [hm] at hmem; simp at hmem
      | some x => rfl
    refine ⟨hstep, ?_, rfl, rfl, rfl, rfl⟩
    unfold removedGroup assocGet
    cases hf : (g.members.filter (fun p => !(p.1 == mid))).find? (fun p => p.1 == mid) with
    | none => rfl
    | some q =>
        exfalso
        have hq := List.find?_some hf
        have hm := List.mem_of_find?_eq_some hf
        have h2 := (List.mem_filter.mp hm).2
        rw [hq] at h2
        simp at h2
  · intro st gid rid mid now g hg hfail
    have hred : removeMember st gid rid mid now =
        (if !(((assocGet g.members rid).map (·.isAdmin)).getD false) then
          (st, .error "Only admins can remove members")
        else
          match assocGet g.members mid with
          | none => (st, .error "Member not found in group")
          | some _ =>
              (storeGroup st (removedGroup g mid now), .ok (removedGroup g mid now))) := by
      unfold removeMember
      rw [hg]
    rw [hred]
    rcases hfail with hna | hnm
    · rw [if_pos (by rw [hna]; rfl)]
      exact ⟨rfl, rfl⟩
    · by_cases hadm : (((assocGet g.members rid).map (·.isAdmin)).getD false) = true
      · rw [if_neg (by rw [hadm]; simp), hnm]
        exact ⟨rfl, rfl⟩
      · rw [if_pos (by simp only [Bool.not_eq_true] at hadm; rw [hadm]; rfl)]
        exact ⟨rfl, rfl⟩

/-- C4 amended, witnessed concretely: the success path at the two-member
group, and the failure path where bob (not an admin) tries to remove
alice. -/
theorem c4_amended_witness :
    removeMember c4Storage "g" "alice" "bob" 50 =
      (storeGroup c4Storage (removedGroup c4Group "bob" 50),
        .ok (removedGroup c4Group "bob" 50)) ∧
    (removeMember c4Storage "g" "bob" "alice" 50).1 = c4Storage :=
  ⟨(c4_amended.1 c4Storage "g" "alice" "bob" 50 c4Group rfl rfl rfl).1,
   (c4_amended.2 c4Storage "g" "bob" "alice" 50 c4Group rfl (Or.inl rfl)).1⟩

/-- One per-recipient entry of a group envelope: the recipient id spread
together with the envelope fields AmiXCrypto.encryptMessage produced for
that member (the per-entry messageCount is overridden by the top-level one
at decryption, so only the fields decryptGroupMessage reads are kept). -/
structure GroupEntry where
  recipientId : String
  ciphertext : Bytes
  nonce : List Nat
  aad : Bytes
  timestamp : Nat
  version : Option String
  deriving DecidableEq, Repr

/-- A group message envelope as encryptGroupMessage returns it. -/
structure GroupEnvelope where
  groupId : String
  messageId : String
  senderId : String
  timestamp : Nat
  type : String
  encryptedMessages : List GroupEntry
  signature : Bytes
  messageCount : Int
  deriving DecidableEq, Repr

/-- JSON.stringify of the aad object decryptGroupMessage rebuilds (no extra
metadata). -/
def aadJson (groupId messageId senderId : String) (timestamp : Nat)
    (msgType : String) : String :=
  "\x7b\"groupId\":\"" ++ groupId ++ "\",\"messageId\":\"" ++ messageId ++
    "\",\"senderId\":\"" ++ senderId ++ "\",\"timestamp\":" ++ toString timestamp ++
    ",\"type\":\"" ++ msgType ++ "\"\x7d"

/-- GroupCrypto._recoverRatchetState: fresh key agreement from the stored
member keys, a new ratchet state, stored under the pair key.  salts feeds
the random salts of the three deriveKey calls involved. -/
def recoverRatchetState (st : GroupStorage) (groupId senderId recipientId : String)
    (salts : List (List Nat)) (now : Nat) : Except String GroupStorage :=
  match getGroup st groupId with
  | none => .error "Group not found"
  | some g =>
    match assocGet g.members senderId, assocGet g.members recipientId with
    | some sender, some recipient =>
        let ex := performKeyExchange sender.publicKey recipient.privateKey
          (salts.headD []) now
        let rs := createRatchetState ex.sharedSecret recipient.privateKey sender.publicKey
          (salts.getD 1 []) (salts.getD 2 []) now
        let updated := assocSet st.ratchetStates (groupId, senderId, recipientId) rs
        .ok { st with ratchetStates := updated }
    | _, _ => .error "TypeError: cannot read properties of undefined"

/-- The try block of GroupCrypto.decryptGroupMessage: group lookup, find
the entry addressed to the recipient, fetch the ratchet state with
createIfMissing false (throwing No active session with sender when there is
none), AmiXCrypto.decryptMessage with the rebuilt aad, re-store the (never
advanced) ratchet state, and verify the group signature over the aad plus
the content hash.  JSON.parse of the plaintext returns it unchanged here
(the payloads are plain strings). -/
def decryptGroupMessageBody (st : GroupStorage) (groupId : String) (msg : GroupEnvelope)
    (recipientId : String) (saltMsg : List Nat) :
    Except String (List Nat × GroupStorage) :=
  match getGroup st groupId with
  | none => .error "Group not found"
  | some g =>
    match msg.encryptedMessages.find? (fun e => e.recipientId == recipientId) with
    | none => .error "No message found for this recipient"
    | some entry =>
      match getRatchetState st groupId msg.senderId recipientId with
      | none => .error "No active session with sender"
      | some rs =>
        let env : Envelope :=
          { ciphertext := entry.ciphertext, nonce := entry.nonce, aad := entry.aad,
            messageCount := msg.messageCount, timestamp := entry.timestamp,
            version := entry.version }
        let aadBytes := utf8 (aadJson groupId msg.messageId msg.senderId msg.timestamp msg.type)
        match decryptMessage env rs (some aadBytes) saltMsg with
        | .error e => .error e
        | .ok decrypted =>
          let updated := assocSet st.ratchetStates (groupId, msg.senderId, recipientId) rs
          let st2 : GroupStorage := { st with ratchetStates := updated }
          if verifyIntegrity (aadBytes ++ sha256 decrypted) msg.signature
              g.signingKeyPair.publicKey then
            .ok (decrypted, st2)
          else
            .error "Invalid message signature"

/-- GroupCrypto.decryptGroupMessage with its catch clause: when the error
message contains the substring ratchet state not found, recover the ratchet
state once and retry recursively (the isRetry flag is set but never read,
so the recursion is in fact unbounded; fuel bounds it here).  The Nat
returned counts the recovery attempts performed. -/
def decryptGroupMessage : Nat → GroupStorage → String → GroupEnvelope → String →
    List (List Nat) → Nat → Except String (List Nat) × GroupStorage × Nat
  | 0, st, _, _, _, _, _ => (.error "out of fuel", st, 0)
  | fuel + 1, st, groupId, msg, recipientId, salts, now =>
    match decryptGroupMessageBody st groupId msg recipientId (salts.headD []) with
    | .ok (plain, st2) => (.ok plain, st2, 0)
    | .error e =>
      if strIncludes e "ratchet state not found" then
        match recoverRatchetState st groupId msg.senderId recipientId (salts.tail) now with
        | .ok st2 =>
            let r := decryptGroupMessage fuel st2 groupId msg recipientId
              (salts.tail.drop 3) now
            (r.1, r.2.1, r.2.2 + 1)
        | .error e2 => (.error e2, st, 1)
      else (.error e, st, 0)

/-- Storage holding the two-member group but no ratchet session at all. -/
def c7Storage : GroupStorage :=
  { groups := [("g", c4Group)], ratchetStates := [] }

/-- The entry of the group envelope addressed to bob. -/
def c7Entry : GroupEntry :=
  { recipientId := "bob", ciphertext := .raw [], nonce := [], aad := .raw [],
    timestamp := 10, version := some "xchacha20poly1305-1.0.0-padded" }

/-- A group envelope from alice addressed to bob. -/
def c7Msg : GroupEnvelope :=
  { groupId := "g", messageId := "m1", senderId := "alice", timestamp := 10,
    type := "regular", encryptedMessages := [c7Entry],
    signature := .raw [], messageCount := 1 }

/-- C7: with no ratchet session stored for (alice, bob), decryptGroupMessage
surfaces the error No active session with sender immediately, performing
ZERO recovery attempts and zero retries and leaving the storage unchanged
(shown at recursion depth 5 with recovery randomness available).  The catch
clause only recovers on errors containing ratchet state not found, a string
no raised error ever contains, so the single-recovery behaviour the claim
describes is dead code. -/
theorem c7_no_recovery_attempt :
    decryptGroupMessage 5 c7Storage "g" c7Msg "bob" [[1], [2], [3], [4]] 10 =
      (.error "No active session with sender", c7Storage, 0) := rfl

end AmiX

